import Mathlib

attribute [local semireducible] Rat.mul Rat.add Rat.sub Rat.inv

/-
Verification of the image-transformation and LED-matrix display core of
display_bci_2d.

The development shallowly embeds the Python sources:
  - src/bci/graphics.py  (class Graphics: crop / resize / zoom / get_pixels / to_ppm)
  - src/bci/display.py   (class ExternalDisplay: the pixel-write loop of show/update)
  - src/bci/neopixel.py  (class NeoPixel: the simulated LED grid)

Modelling conventions:
  - PIL images are modelled as a structure of dimensions plus a pixel
    function; PIL crop fills out-of-bounds samples with zeros (transparent),
    and rounds box coordinates with Python banker rounding (map(int, map(round, box))
    in PIL Image._crop).
  - PIL resize returns a copy unchanged when the requested size equals the
    current size (short-circuit in PIL Image.resize); a genuine rescale is
    represented by an explicit resampling parameter, since its pixel values
    come from the resampling kernel and no claim below depends on them.
  - Python floats are idealised as rationals; int() is truncation toward
    zero; round() is round-half-to-even.
-/

namespace BCI

/-- RGBA sample, one pixel of a PIL image in RGBA mode. -/
structure Pixel where
  red : ℕ
  green : ℕ
  blue : ℕ
  alpha : ℕ
deriving DecidableEq, Repr

/-- The zero (fully transparent) pixel PIL uses to fill crop regions that
fall outside the source image. -/
def transparent : Pixel := ⟨0, 0, 0, 0⟩

/-- A PIL image: dimensions plus pixel lookup (x across, y down). -/
structure Img where
  width : ℕ
  height : ℕ
  pix : ℕ → ℕ → Pixel

/-- Python round(): round half to even, as PIL applies to crop-box coordinates. -/
def pyRound (q : ℚ) : ℤ :=
  let f := ⌊q⌋
  let r := q - (f : ℚ)
  if r < 1 / 2 then f
  else if 1 / 2 < r then f + 1
  else if f % 2 = 0 then f else f + 1

/-- Python int() on a float: truncation toward zero. -/
def pyTrunc (q : ℚ) : ℤ := if 0 ≤ q then ⌊q⌋ else -⌊-q⌋

/-- PIL Image.crop with box (left, upper, right, lower): coordinates are
rounded, the new size is (right - left, lower - upper), and samples outside
the source are zero-filled. -/
def Img.cropBox (img : Img) (left upper right lower : ℚ) : Img :=
  let x0 := pyRound left
  let y0 := pyRound upper
  let x1 := pyRound right
  let y1 := pyRound lower
  { width := (x1 - x0).toNat
    height := (y1 - y0).toNat
    pix := fun i j =>
      let sx := x0 + (i : ℤ)
      let sy := y0 + (j : ℤ)
      if 0 ≤ sx ∧ sx < (img.width : ℤ) ∧ 0 ≤ sy ∧ sy < (img.height : ℤ) then
        img.pix sx.toNat sy.toNat
      else transparent }

/-- PIL Image.getdata(): the pixels flattened row-major. -/
def Img.getdata (img : Img) : List Pixel :=
  (List.range (img.width * img.height)).map
    (fun k => img.pix (k % img.width) (k / img.width))

/-- A resampling kernel: given the source image and the target size, produces
the pixel at each target coordinate. PIL uses bicubic resampling here; its
values are irrelevant to the properties below, so it is kept as a parameter. -/
def Resample : Type := Img → ℤ → ℤ → ℕ → ℕ → Pixel

/-- PIL Image.resize((w, h)): returns the image unchanged when the size
already matches (PIL short-circuits to self.copy()), otherwise an image of
the new size with resampled pixels. -/
def Img.resizeTo (resample : Resample) (img : Img) (w h : ℤ) : Img :=
  if (img.width : ℤ) = w ∧ (img.height : ℤ) = h then img
  else { width := w.toNat, height := h.toNat, pix := resample img w h }

/-- State of a Graphics object (src/bci/graphics.py): the canonical image,
the derived view, the tracked width/height fields, and the cumulative zoom
factor stored in _transformations. -/
structure Graphics where
  image : Img
  view : Img
  width : ℤ
  height : ℤ
  zoom : ℚ

/-- Graphics._initialize: view is a copy of the loaded image, the tracked
dimensions are the view dimensions, and the zoom factor starts at 1. -/
def Graphics.load (img : Img) : Graphics :=
  { image := img, view := img, width := (img.width : ℤ), height := (img.height : ℤ), zoom := 1 }

/-- Graphics.crop(width, height, x, y, inplace): the bounding box
(x - width, y - height, x + width, y + height) is cropped out of self.image;
with inplace the image itself is replaced and the view becomes a copy of it,
otherwise only the view is replaced. -/
def Graphics.crop (g : Graphics) (width height x y : ℚ) (inplace : Bool) : Graphics :=
  if inplace then
    let newImage := g.image.cropBox (x - width) (y - height) (x + width) (y + height)
    { g with image := newImage, view := newImage }
  else
    { g with view := g.image.cropBox (x - width) (y - height) (x + width) (y + height) }

/-- The crop-region computation of Graphics.resize with keep_aspect_ratio
(lines 118-135 of graphics.py), returning (crop_width, crop_height) before
the int() truncation. -/
def cropRegion (curWidth curHeight tgtWidth tgtHeight : ℚ) : ℚ × ℚ :=
  let aspectRatio := tgtWidth / tgtHeight
  if curWidth / curHeight ≤ aspectRatio then
    let cw := curHeight * aspectRatio
    if cw > curWidth then (curWidth, curWidth / aspectRatio) else (cw, curHeight)
  else
    let ch := curWidth * aspectRatio
    if ch > curHeight then (curHeight / aspectRatio, curHeight) else (curWidth, ch)

/-- Graphics.resize(width, height, keep_aspect_ratio, inplace): with
keep_aspect_ratio a crop region is computed first and cropped around the
centre of the tracked dimensions; then the buffers are resized to exactly
(width, height) and the tracked dimensions are set to (width, height). -/
def Graphics.resize (resample : Resample) (g : Graphics) (width height : ℤ)
    (keepAspectRatio inplace : Bool) : Graphics :=
  let g1 :=
    if keepAspectRatio then
      let r := cropRegion (g.width : ℚ) (g.height : ℚ) (width : ℚ) (height : ℚ)
      g.crop ((pyTrunc r.1 : ℤ) : ℚ) ((pyTrunc r.2 : ℤ) : ℚ)
        ((g.width : ℚ) / 2) ((g.height : ℚ) / 2) inplace
    else g
  if inplace then
    { g1 with image := g1.image.resizeTo resample width height,
              view := g1.view.resizeTo resample width height,
              width := width, height := height }
  else
    { g1 with view := g1.view.resizeTo resample width height,
              width := width, height := height }

/-- Graphics.zoom(zoom, center, x, y): returns the new state together with a
flag that is true exactly when the minimum-zoom message was printed and the
call returned without touching the state. -/
def Graphics.zoomOp (resample : Resample) (g : Graphics) (zoom : ℚ) (center : Bool)
    (x y : ℚ) : Graphics × Bool :=
  let x := if center then (g.width : ℚ) / 2 else x
  let y := if center then (g.height : ℚ) / 2 else y
  let zoom2 := g.zoom * zoom * 2
  if zoom2 ≤ 1 / 8 then (g, true)
  else
    let g1 : Graphics := { g with zoom := g.zoom * zoom }
    let g2 := g1.crop ((g1.width : ℚ) / zoom2) ((g1.height : ℚ) / zoom2) x y false
    let g3 := g2.resize resample g2.width g2.height false false
    (g3, false)

/-- Graphics.get_pixels: the view flattened row-major. -/
def Graphics.getPixelsOf (g : Graphics) : List Pixel := g.view.getdata

/-- One pixel line of Graphics.to_ppm: alpha zero is written as 0 0 0. -/
def ppmPixelLine (p : Pixel) : String :=
  if p.alpha = 0 then "0 0 0\n"
  else toString p.red ++ " " ++ toString p.green ++ " " ++ toString p.blue ++ "\n"

/-- The text Graphics.to_ppm writes: the header built from the tracked
dimensions, then the loop appending one line per view pixel. -/
def Graphics.toPpmText (g : Graphics) : String :=
  g.getPixelsOf.foldl (fun acc p => acc ++ ppmPixelLine p)
    ("P3\n" ++ toString g.width ++ " " ++ toString g.height ++ "\n255\n")

/-- The operations a caller can perform on a Graphics object after load. -/
inductive Op where
  | cropOp (width height x y : ℚ) (inplace : Bool)
  | resizeOp (width height : ℤ) (keepAspectRatio inplace : Bool)
  | zoomStep (zoom : ℚ) (center : Bool) (x y : ℚ)
  | getPixelsOp
  | toPpmOp
deriving DecidableEq

/-- Effect of one operation on the Graphics state; get_pixels and to_ppm
read the state without modifying it. -/
def Graphics.applyOp (resample : Resample) (g : Graphics) : Op → Graphics
  | .cropOp w h x y ip => g.crop w h x y ip
  | .resizeOp w h kar ip => g.resize resample w h kar ip
  | .zoomStep z c x y => (g.zoomOp resample z c x y).1
  | .getPixelsOp => g
  | .toPpmOp => g

/-- Run a sequence of operations. -/
def Graphics.run (resample : Resample) (g : Graphics) : List Op → Graphics
  | [] => g
  | op :: ops => (g.applyOp resample op).run resample ops

/-- An RGB color as built by Color(red, green, blue) in neopixel.py. -/
structure Color where
  red : ℕ
  green : ℕ
  blue : ℕ
deriving DecidableEq, Repr

/-- The color written for a pixel by the display loop:
Color(pixels[i][0], pixels[i][1], pixels[i][2]) drops the alpha channel. -/
def colorOf (p : Pixel) : Color := ⟨p.red, p.green, p.blue⟩

/-- State of the simulated NeoPixel LED strip (neopixel.py): the configured
led_count and the linear grid of colors.  numPixels() returns ledCount. -/
structure NeoPixelState where
  ledCount : ℕ
  grid : List Color
deriving DecidableEq, Repr

/-- NeoPixel.setPixelColor(index, color): in-place store; numpy raises on an
out-of-range index, which the caller loop below surfaces as a failure. -/
def NeoPixelState.setPixelColor (s : NeoPixelState) (i : ℕ) (c : Color) : NeoPixelState :=
  { s with grid := s.grid.set i c }

/-- NeoPixel.__init__ allocates the grid once with length led_count
(np.zeros(led_count)). -/
def NeoPixelState.init (ledCount : ℕ) : NeoPixelState :=
  { ledCount := ledCount, grid := List.replicate ledCount ⟨0, 0, 0⟩ }

/-- The body of the pixel-write loop in ExternalDisplay.show and
ExternalDisplay.update: writes indices i, i+1, ..., i+count-1, reading
pixels[i] from the source array at each step; a read past the end of the
source (numpy IndexError) aborts with none. -/
def writeFrom (s : NeoPixelState) (pixels : List Pixel) (i : ℕ) : ℕ → Option NeoPixelState
  | 0 => some s
  | count + 1 =>
    match pixels[i]? with
    | none => none
    | some p => writeFrom (s.setPixelColor i (colorOf p)) pixels (i + 1) count

/-- The pixel-write loop shared by ExternalDisplay.show and update:
for i in range(self._frame.numPixels()):
  self._frame.setPixelColor(i, Color(pixels[i][0], pixels[i][1], pixels[i][2]))
iterating over the sink's fixed grid length, not the source length. -/
def displayWrite (s : NeoPixelState) (pixels : List Pixel) : Option NeoPixelState :=
  writeFrom s pixels 0 s.ledCount

/-- ExternalDisplay.update: reads the current view pixels of the attached
Graphics object and runs the pixel-write loop. -/
def displayUpdate (s : NeoPixelState) (g : Graphics) : Option NeoPixelState :=
  displayWrite s g.getPixelsOf

/-- The view dimensions agree with the tracked width/height fields. -/
abbrev viewDimsMatch (g : Graphics) : Prop :=
  (g.view.width : ℤ) = g.width ∧ (g.view.height : ℤ) = g.height

/-- Operations that do not desynchronise the tracked dimensions from the
view: anything except a bare crop, with resize targets nonnegative. -/
def dimSafe : Op → Bool
  | .cropOp _ _ _ _ _ => false
  | .resizeOp w h _ _ => decide (0 ≤ w) && decide (0 ≤ h)
  | _ => true

/-- Invariant carried through crop-free runs: the view dimensions match the
tracked fields and the tracked fields are nonnegative. -/
def goodState (g : Graphics) : Prop :=
  viewDimsMatch g ∧ 0 ≤ g.width ∧ 0 ≤ g.height

/-- The zoom factor a single operation multiplies onto the state: the factor
of a zoom call that passes the minimum-zoom floor check, 1 otherwise. -/
def acceptedZoomFactor (g : Graphics) : Op → ℚ
  | .zoomStep z _ _ _ => if g.zoom * z * 2 ≤ 1 / 8 then 1 else z
  | _ => 1

/-- Product of the factors of all zoom calls in the sequence that pass the
minimum-zoom floor check, evaluated along the run. -/
def zoomProduct (resample : Resample) (g : Graphics) : List Op → ℚ
  | [] => 1
  | op :: ops => acceptedZoomFactor g op * zoomProduct resample (g.applyOp resample op) ops

/-- Concatenation of the per-pixel lines of the PPM dump, one line per pixel
in the order given. -/
def ppmLines : List Pixel → String
  | [] => ""
  | p :: ps => ppmPixelLine p ++ ppmLines ps

/-- A concrete resampling kernel used to instantiate witnesses. -/
def resample0 : Resample := fun _ _ _ _ _ => transparent

/-- A 2 by 2 all-opaque red image. -/
def red2x2 : Img := ⟨2, 2, fun _ _ => ⟨255, 0, 0, 255⟩⟩

/-- The Graphics state right after loading the red 2 by 2 image. -/
def gRed : Graphics := Graphics.load red2x2

/-- A 4 by 2 all-opaque red image. -/
def img4x2 : Img := ⟨4, 2, fun _ _ => ⟨255, 0, 0, 255⟩⟩

/-- A 2 by 2 image whose top-left pixel is red and whose other pixels are
blue: crops of its image and of a shifted view are distinguishable. -/
def imgMix : Img :=
  ⟨2, 2, fun x y => if x = 0 ∧ y = 0 then ⟨255, 0, 0, 255⟩ else ⟨0, 0, 255, 255⟩⟩

/-- A reachable state whose view differs from its image: imgMix loaded and
then cropped (not in place) around (2, 2). -/
def gMix : Graphics := (Graphics.load imgMix).crop 1 1 2 2 false

section Theorems

/- Helper lemmas (shared; none of them is a claim theorem). -/

lemma crop_width_eq (g : Graphics) (w h x y : ℚ) (ip : Bool) :
    (g.crop w h x y ip).width = g.width := by
  cases ip <;> simp [Graphics.crop]

lemma crop_height_eq (g : Graphics) (w h x y : ℚ) (ip : Bool) :
    (g.crop w h x y ip).height = g.height := by
  cases ip <;> simp [Graphics.crop]

lemma crop_zoom_eq (g : Graphics) (w h x y : ℚ) (ip : Bool) :
    (g.crop w h x y ip).zoom = g.zoom := by
  cases ip <;> simp [Graphics.crop]

lemma resize_width_eq (resample : Resample) (g : Graphics) (w h : ℤ) (kar ip : Bool) :
    (g.resize resample w h kar ip).width = w := by
  cases ip <;> simp [Graphics.resize]

lemma resize_height_eq (resample : Resample) (g : Graphics) (w h : ℤ) (kar ip : Bool) :
    (g.resize resample w h kar ip).height = h := by
  cases ip <;> simp [Graphics.resize]

lemma resize_zoom_eq (resample : Resample) (g : Graphics) (w h : ℤ) (kar ip : Bool) :
    (g.resize resample w h kar ip).zoom = g.zoom := by
  cases ip <;> cases kar <;> simp [Graphics.resize, crop_zoom_eq]

lemma zoomOp_floor (resample : Resample) (g : Graphics) (z : ℚ) (c : Bool) (x y : ℚ)
    (h : g.zoom * z * 2 ≤ 1 / 8) :
    g.zoomOp resample z c x y = (g, true) := by
  simp only [Graphics.zoomOp]
  rw [if_pos h]

lemma zoomOp_snd_false_iff (resample : Resample) (g : Graphics) (z : ℚ) (c : Bool) (x y : ℚ) :
    (g.zoomOp resample z c x y).2 = false ↔ ¬ g.zoom * z * 2 ≤ 1 / 8 := by
  simp only [Graphics.zoomOp]
  split <;> simp_all

lemma zoomOp_pass_fields (resample : Resample) (g : Graphics) (z : ℚ) (c : Bool) (x y : ℚ)
    (h : ¬ g.zoom * z * 2 ≤ 1 / 8) :
    (g.zoomOp resample z c x y).1.zoom = g.zoom * z ∧
    (g.zoomOp resample z c x y).1.width = g.width ∧
    (g.zoomOp resample z c x y).1.height = g.height := by
  simp only [Graphics.zoomOp]
  rw [if_neg h]
  refine ⟨?_, ?_, ?_⟩ <;>
    simp [resize_zoom_eq, resize_width_eq, resize_height_eq,
      crop_zoom_eq, crop_width_eq, crop_height_eq]

/-- C3: a zoom call whose zoom2 = zoom_factor * factor * 2 is at most 1/8 is
a no-op that leaves the whole Graphics state (zoom factor, image, view,
tracked width and height) unchanged and reports the minimum-zoom condition. -/
theorem zoom_floor_noop (resample : Resample) (g : Graphics) (z : ℚ) (c : Bool) (x y : ℚ)
    (h : g.zoom * z * 2 ≤ 1 / 8) :
    g.zoomOp resample z c x y = (g, true) :=
  zoomOp_floor resample g z c x y h

/-- Witness for C3 at the loaded red image with factor 1/32. -/
theorem zoom_floor_noop_witness :
    gRed.zoom * (1 / 32) * 2 ≤ 1 / 8 ∧
    gRed.zoomOp resample0 (1 / 32) true 0 0 = (gRed, true) :=
  ⟨by decide, zoom_floor_noop resample0 gRed (1 / 32) true 0 0 (by decide)⟩

/-- C4: when neither call reaches the minimum-zoom floor, zoom(2) followed by
zoom(0.5) restores the zoom factor and the tracked width and height to their
values before the pair (exactly, in the rational idealisation of floats). -/
theorem zoom_roundtrip (resample : Resample) (g : Graphics)
    (h1 : (g.zoomOp resample 2 true 0 0).2 = false)
    (h2 : ((g.zoomOp resample 2 true 0 0).1.zoomOp resample (1 / 2) true 0 0).2 = false) :
    ((g.zoomOp resample 2 true 0 0).1.zoomOp resample (1 / 2) true 0 0).1.zoom = g.zoom ∧
    ((g.zoomOp resample 2 true 0 0).1.zoomOp resample (1 / 2) true 0 0).1.width = g.width ∧
    ((g.zoomOp resample 2 true 0 0).1.zoomOp resample (1 / 2) true 0 0).1.height = g.height := by
  have h1' := (zoomOp_snd_false_iff resample g 2 true 0 0).mp h1
  have h2' := (zoomOp_snd_false_iff resample (g.zoomOp resample 2 true 0 0).1
    (1 / 2) true 0 0).mp h2
  obtain ⟨z1, w1, d1⟩ := zoomOp_pass_fields resample g 2 true 0 0 h1'
  obtain ⟨z2, w2, d2⟩ := zoomOp_pass_fields resample (g.zoomOp resample 2 true 0 0).1
    (1 / 2) true 0 0 h2'
  refine ⟨?_, ?_, ?_⟩
  · rw [z2, z1]; ring
  · rw [w2, w1]
  · rw [d2, d1]

/-- Witness for C4 at the loaded red image. -/
theorem zoom_roundtrip_witness :
    (gRed.zoomOp resample0 2 true 0 0).2 = false ∧
    ((gRed.zoomOp resample0 2 true 0 0).1.zoomOp resample0 (1 / 2) true 0 0).2 = false ∧
    (((gRed.zoomOp resample0 2 true 0 0).1.zoomOp resample0 (1 / 2) true 0 0).1.zoom = gRed.zoom ∧
     ((gRed.zoomOp resample0 2 true 0 0).1.zoomOp resample0 (1 / 2) true 0 0).1.width = gRed.width ∧
     ((gRed.zoomOp resample0 2 true 0 0).1.zoomOp resample0 (1 / 2) true 0 0).1.height = gRed.height) :=
  ⟨by decide, by decide, zoom_roundtrip resample0 gRed (by decide) (by decide)⟩

/-- C1 counterexample: in the state gMix (whose view differs from its image),
crop(1, 1, 1, 1, inplace=false) does not produce the crop of the View by the
box (0, 0, 2, 2): the code crops the Image instead, so the claim that the
bounding box is taken against the View when inplace is false fails here. -/
theorem crop_not_against_view :
    (gMix.crop 1 1 1 1 false).view.getdata ≠
      (gMix.view.cropBox (1 - 1) (1 - 1) (1 + 1) (1 + 1)).getdata := by
  decide

/-- C1 amended: the bounding box (x-w, y-h, x+w, y+h) is always taken against
the Image; with inplace false only the View is replaced by the cropped region
(the Image is untouched), and with inplace true the Image is replaced and the
View becomes a copy of the new Image. -/
theorem crop_buffer_semantics (g : Graphics) (w h x y : ℚ) :
    ((g.crop w h x y false).view = g.image.cropBox (x - w) (y - h) (x + w) (y + h) ∧
     (g.crop w h x y false).image = g.image) ∧
    ((g.crop w h x y true).image = g.image.cropBox (x - w) (y - h) (x + w) (y + h) ∧
     (g.crop w h x y true).view = g.image.cropBox (x - w) (y - h) (x + w) (y + h)) := by
  refine ⟨⟨?_, ?_⟩, ?_, ?_⟩ <;> simp [Graphics.crop]

/-- C2: evaluation of the keep-aspect-ratio crop-region computation at the
failing input (current buffer 4 x 8, target (1, 4), so targetRatio = 1/4 and
currentRatio = 1/2 > 1/4): the code takes the else branch and computes
crop_height = currentWidth * targetRatio = 1, yielding region (4, 1) whose
ratio 4 differs from the target ratio 1/4 -- the aspect ratio is not kept,
contradicting both the spec formula cropHeight = currentWidth / targetRatio
and the keep_aspect_ratio documentation of resize.  At the claim's concrete
instance (100 x 50 view, target (60, 60)) the two formulas coincide since the
target ratio is 1, and the code indeed yields (50, 50) with ratio 1 inside
the 100 x 50 bounds. -/
theorem cropRegion_else_branch_eval :
    cropRegion 4 8 1 4 = (4, 1) ∧
    (4 : ℚ) / 1 ≠ 1 / 4 ∧
    cropRegion 100 50 60 60 = (50, 50) ∧
    (50 : ℚ) / 50 = 60 / 60 ∧ (50 : ℚ) ≤ 100 ∧ (50 : ℚ) ≤ 50 :=
  ⟨by decide, by decide, by decide, by decide, by decide, by decide⟩

/-- C5 counterexample: load a 4 x 2 image and call crop(1, 1, 0, 0, false).
The view becomes 2 x 2 but the tracked width stays 4, so the invariant that
the view dimensions always equal the tracked dimensions fails after a crop. -/
theorem view_dims_desync_after_crop :
    ¬ viewDimsMatch ((Graphics.load img4x2).run resample0 [Op.cropOp 1 1 0 0 false]) := by
  decide

lemma resizeTo_dims (resample : Resample) (img : Img) (w h : ℤ)
    (hw : 0 ≤ w) (hh : 0 ≤ h) :
    ((Img.resizeTo resample img w h).width : ℤ) = w ∧
    ((Img.resizeTo resample img w h).height : ℤ) = h := by
  unfold Img.resizeTo
  split
  · next hc => exact ⟨hc.1, hc.2⟩
  · exact ⟨Int.toNat_of_nonneg hw, Int.toNat_of_nonneg hh⟩

lemma resize_viewDimsMatch (resample : Resample) (g : Graphics) (w h : ℤ) (kar ip : Bool)
    (hw : 0 ≤ w) (hh : 0 ≤ h) :
    viewDimsMatch (g.resize resample w h kar ip) := by
  obtain ⟨hW, hH⟩ := resizeTo_dims resample
    (if kar then
      (g.crop ((pyTrunc (cropRegion (g.width : ℚ) (g.height : ℚ) (w : ℚ) (h : ℚ)).1 : ℤ) : ℚ)
        ((pyTrunc (cropRegion (g.width : ℚ) (g.height : ℚ) (w : ℚ) (h : ℚ)).2 : ℤ) : ℚ)
        ((g.width : ℚ) / 2) ((g.height : ℚ) / 2) ip)
     else g).view w h hw hh
  cases ip <;>
    simp only [Graphics.resize, viewDimsMatch] <;>
    exact ⟨hW, hH⟩

lemma applyOp_goodState (resample : Resample) (g : Graphics) (op : Op)
    (hg : goodState g) (hop : dimSafe op = true) :
    goodState (g.applyOp resample op) := by
  cases op with
  | cropOp w h x y ip => simp [dimSafe] at hop
  | resizeOp w h kar ip =>
    simp only [dimSafe, Bool.and_eq_true, decide_eq_true_eq] at hop
    exact ⟨resize_viewDimsMatch resample g w h kar ip hop.1 hop.2,
      by rw [Graphics.applyOp, resize_width_eq]; exact hop.1,
      by rw [Graphics.applyOp, resize_height_eq]; exact hop.2⟩
  | zoomStep z c x y =>
    simp only [Graphics.applyOp]
    by_cases hz : g.zoom * z * 2 ≤ 1 / 8
    · rw [zoomOp_floor resample g z c x y hz]
      exact hg
    · simp only [Graphics.zoomOp]
      rw [if_neg hz]
      set g1 : Graphics := { g with zoom := g.zoom * z } with hg1
      have hw1 : g1.width = g.width := rfl
      have hh1 : g1.height = g.height := rfl
      set g2 := g1.crop ((g1.width : ℚ) / (g.zoom * z * 2)) ((g1.height : ℚ) / (g.zoom * z * 2))
        (if c then (g.width : ℚ) / 2 else x) (if c then (g.height : ℚ) / 2 else y) false with hg2
      have hw2 : g2.width = g.width := by rw [hg2, crop_width_eq, hw1]
      have hh2 : g2.height = g.height := by rw [hg2, crop_height_eq, hh1]
      refine ⟨?_, ?_, ?_⟩
      · have := resize_viewDimsMatch resample g2 g2.width g2.height false false
          (by rw [hw2]; exact hg.2.1) (by rw [hh2]; exact hg.2.2)
        exact this
      · rw [resize_width_eq, hw2]; exact hg.2.1
      · rw [resize_height_eq, hh2]; exact hg.2.2
  | getPixelsOp => exact hg
  | toPpmOp => exact hg

lemma run_goodState (resample : Resample) :
    ∀ (ops : List Op) (g : Graphics), goodState g →
      (∀ op ∈ ops, dimSafe op = true) → goodState (g.run resample ops)
  | [], _, hg, _ => hg
  | op :: ops, g, hg, hops =>
    run_goodState resample ops (g.applyOp resample op)
      (applyOp_goodState resample g op hg (hops op (List.mem_cons_self op ops)))
      (fun o ho => hops o (List.mem_cons_of_mem op ho))

/-- C5 amended: after load and any sequence of resize (with nonnegative
targets) and zoom operations -- that is, any sequence without a bare crop --
the view dimensions equal the tracked width/height, which equal the target of
the last resize; a bare crop desynchronises them (see the counterexample). -/
theorem view_dims_invariant_no_crop (resample : Resample) (img : Img) (ops : List Op)
    (hops : ∀ op ∈ ops, dimSafe op = true) :
    viewDimsMatch ((Graphics.load img).run resample ops) :=
  (run_goodState resample ops (Graphics.load img)
    ⟨⟨rfl, rfl⟩, Int.natCast_nonneg _, Int.natCast_nonneg _⟩ hops).1

/-- Witness for C5 amended: a resize-then-zoom run on the red image. -/
theorem view_dims_invariant_no_crop_witness :
    (∀ op ∈ [Op.resizeOp 3 5 true false, Op.zoomStep 2 true 0 0], dimSafe op = true) ∧
    viewDimsMatch ((Graphics.load red2x2).run resample0
      [Op.resizeOp 3 5 true false, Op.zoomStep 2 true 0 0]) :=
  ⟨by decide, view_dims_invariant_no_crop resample0 red2x2
    [Op.resizeOp 3 5 true false, Op.zoomStep 2 true 0 0] (by decide)⟩

lemma applyOp_zoom_eq (resample : Resample) (g : Graphics) (op : Op) :
    (g.applyOp resample op).zoom = g.zoom * acceptedZoomFactor g op := by
  cases op with
  | cropOp w h x y ip =>
    simp [Graphics.applyOp, crop_zoom_eq, acceptedZoomFactor]
  | resizeOp w h kar ip =>
    simp [Graphics.applyOp, resize_zoom_eq, acceptedZoomFactor]
  | zoomStep z c x y =>
    simp only [Graphics.applyOp, acceptedZoomFactor]
    by_cases hz : g.zoom * z * 2 ≤ 1 / 8
    · rw [zoomOp_floor resample g z c x y hz, if_pos hz, mul_one]
    · rw [if_neg hz]
      exact (zoomOp_pass_fields resample g z c x y hz).1
  | getPixelsOp => simp [Graphics.applyOp, acceptedZoomFactor]
  | toPpmOp => simp [Graphics.applyOp, acceptedZoomFactor]

lemma run_zoom_eq (resample : Resample) :
    ∀ (ops : List Op) (g : Graphics),
      (g.run resample ops).zoom = g.zoom * zoomProduct resample g ops
  | [], g => (mul_one g.zoom).symm
  | op :: ops, g => by
    rw [Graphics.run, run_zoom_eq resample ops, applyOp_zoom_eq, zoomProduct, mul_assoc]

/-- C10: the zoom factor is modified only by zoom calls that pass the
minimum-zoom floor check, each multiplying it by its factor, while crop,
resize, get_pixels and to_ppm leave it unchanged; hence after load (where it
is 1) followed by any operation sequence it equals the product of the factors
of the zoom calls that were not rejected by the floor. -/
theorem zoom_factor_is_accepted_product (resample : Resample) (img : Img) (ops : List Op) :
    ((Graphics.load img).run resample ops).zoom =
      zoomProduct resample (Graphics.load img) ops := by
  rw [run_zoom_eq]
  exact one_mul _

lemma foldl_ppm_append : ∀ (l : List Pixel) (acc : String),
    l.foldl (fun a p => a ++ ppmPixelLine p) acc = acc ++ ppmLines l
  | [], acc => by rw [List.foldl_nil, ppmLines, String.append_empty]
  | p :: ps, acc => by
    rw [List.foldl_cons, foldl_ppm_append ps, ppmLines, String.append_assoc]

/-- C8: for every state, to_ppm writes exactly the magic header line P3, a
line with the tracked width and height, the 255 maxval line, and then one
R G B line per view pixel in row-major order (0 0 0 for alpha-zero pixels);
in particular the loaded 2 x 2 all-opaque red view produces exactly the
expected dump. -/
theorem to_ppm_format :
    (∀ g : Graphics, g.toPpmText =
      "P3\n" ++ toString g.width ++ " " ++ toString g.height ++ "\n255\n" ++
        ppmLines g.getPixelsOf) ∧
    gRed.toPpmText = "P3\n2 2\n255\n255 0 0\n255 0 0\n255 0 0\n255 0 0\n" :=
  ⟨fun g => foldl_ppm_append g.getPixelsOf _, by decide⟩

lemma writeFrom_isSome_iff (pixels : List Pixel) :
    ∀ (count i : ℕ) (s : NeoPixelState),
      (writeFrom s pixels i count).isSome ↔ (count = 0 ∨ i + count ≤ pixels.length)
  | 0, i, s => by simp [writeFrom]
  | count + 1, i, s => by
    rw [writeFrom]
    cases hp : pixels[i]? with
    | none =>
      rw [List.getElem?_eq_none_iff] at hp
      simp only [Option.isSome_none, Bool.false_eq_true, false_iff]
      omega
    | some p =>
      have hi : i < pixels.length := (List.getElem?_eq_some.mp hp).1
      rw [writeFrom_isSome_iff pixels count (i + 1) (s.setPixelColor i (colorOf p))]
      omega

/-- C6: the pixel-write loop of ExternalDisplay.show and update iterates over
the fixed grid length led_count regardless of the source length, so every
access pixels[i], i in 0..led_count-1, is in range exactly when the source
pixel array has length at least led_count; otherwise the loop hits an
out-of-range read. -/
theorem displayWrite_in_range_iff (s : NeoPixelState) (pixels : List Pixel) :
    (displayWrite s pixels).isSome ↔ s.ledCount ≤ pixels.length := by
  rw [displayWrite, writeFrom_isSome_iff pixels s.ledCount 0 s]
  omega

lemma writeFrom_spec (pixels : List Pixel) :
    ∀ (count i : ℕ) (s : NeoPixelState), i + count ≤ pixels.length →
      ∃ s', writeFrom s pixels i count = some s' ∧
        s'.ledCount = s.ledCount ∧
        s'.grid.length = s.grid.length ∧
        ∀ j : ℕ, s'.grid[j]? =
          if i ≤ j ∧ j < i + count then
            (if j < s.grid.length then (pixels[j]?).map colorOf else none)
          else s.grid[j]?
  | 0, i, s, _ => by
    refine ⟨s, rfl, rfl, rfl, fun j => ?_⟩
    rw [if_neg (by omega)]
  | count + 1, i, s, hlen => by
    have hi : i < pixels.length := by omega
    have hp : pixels[i]? = some pixels[i] := List.getElem?_eq_getElem hi
    rw [writeFrom, hp]
    obtain ⟨s', hs', hled, hlen', hptw⟩ :=
      writeFrom_spec pixels count (i + 1) (s.setPixelColor i (colorOf pixels[i]))
        (by omega)
    simp only [NeoPixelState.setPixelColor, List.length_set] at hled hlen' hptw
    refine ⟨s', hs', hled, hlen', fun j => ?_⟩
    rw [hptw j]
    by_cases hji : j = i
    · subst hji
      rw [if_neg (show ¬ (j + 1 ≤ j ∧ j < j + 1 + count) by omega),
        List.getElem?_set, if_pos rfl, hp,
        if_pos (show j ≤ j ∧ j < j + (count + 1) by omega)]
      by_cases hjl : j < s.grid.length
      · rw [if_pos hjl, if_pos hjl, Option.map_some']
      · rw [if_neg hjl, if_neg hjl]
    · by_cases hj : i + 1 ≤ j ∧ j < i + 1 + count
      · rw [if_pos hj, if_pos (show i ≤ j ∧ j < i + (count + 1) by omega)]
      · rw [if_neg hj, List.getElem?_set,
          if_neg (show ¬ i = j from fun hc => hji hc.symm),
          if_neg (show ¬ (i ≤ j ∧ j < i + (count + 1)) by omega)]

/-- C7: when the source pixel array has length at least led_count and the
grid has its constructed length led_count, the write loop of present
succeeds and the grid afterwards is exactly the first led_count source
pixels, converted to colors, in row-major source order, with any further
source pixels ignored. -/
theorem displayWrite_take_ledCount (s : NeoPixelState) (pixels : List Pixel)
    (hlen : s.ledCount ≤ pixels.length) (hgrid : s.grid.length = s.ledCount) :
    displayWrite s pixels =
      some ⟨s.ledCount, (pixels.take s.ledCount).map colorOf⟩ := by
  obtain ⟨s', hs', hled, hlen', hptw⟩ :=
    writeFrom_spec pixels s.ledCount 0 s (by omega)
  have hgrid' : s'.grid = (pixels.take s.ledCount).map colorOf := by
    apply List.ext_getElem?
    intro j
    rw [hptw j, List.getElem?_map, List.getElem?_take]
    by_cases hj : j < s.ledCount
    · rw [if_pos (show 0 ≤ j ∧ j < 0 + s.ledCount by omega),
        if_pos (show j < s.grid.length by omega), if_pos hj]
    · rw [if_neg (show ¬ (0 ≤ j ∧ j < 0 + s.ledCount) by omega), if_neg hj,
        Option.map_none', List.getElem?_eq_none_iff]
      omega
  have hs'eq : s' = ⟨s.ledCount, (pixels.take s.ledCount).map colorOf⟩ := by
    obtain ⟨led, grid⟩ := s'
    simp only [NeoPixelState.mk.injEq]
    exact ⟨hled, hgrid'⟩
  rw [displayWrite, hs', hs'eq]

/-- Witness for C7: a 4-LED grid and a 4-pixel source; exactly the 4 source
colors are written in order. -/
theorem displayWrite_take_ledCount_witness :
    (NeoPixelState.init 4).ledCount ≤
      ([⟨1, 2, 3, 255⟩, ⟨4, 5, 6, 255⟩, ⟨7, 8, 9, 255⟩, ⟨10, 11, 12, 0⟩] : List Pixel).length ∧
    (NeoPixelState.init 4).grid.length = (NeoPixelState.init 4).ledCount ∧
    displayWrite (NeoPixelState.init 4)
        [⟨1, 2, 3, 255⟩, ⟨4, 5, 6, 255⟩, ⟨7, 8, 9, 255⟩, ⟨10, 11, 12, 0⟩] =
      some ⟨4, [⟨1, 2, 3⟩, ⟨4, 5, 6⟩, ⟨7, 8, 9⟩, ⟨10, 11, 12⟩]⟩ :=
  ⟨by decide, by decide, by
    rw [displayWrite_take_ledCount (NeoPixelState.init 4)
      [⟨1, 2, 3, 255⟩, ⟨4, 5, 6, 255⟩, ⟨7, 8, 9, 255⟩, ⟨10, 11, 12, 0⟩]
      (by decide) (by decide)]
    decide⟩

end Theorems

end BCI
